import Mathlib

/-
Verification of the VERA agent orchestration logic.

The Python sources (vera_agent.py, ask_vera.py) are shallowly embedded here:
strings are lists of characters, the LLM / HTTP transport is an explicit
function or outcome parameter, and fallible Python code returns Except.
Every definition follows the corresponding Python function; external Python
builtins (str.find, str.replace, str.split, int(), str.format, list slicing,
dict.get on a parsed JSON value) are modelled by small executable functions
with the builtin's documented behaviour on the inputs the program uses.
-/

set_option maxRecDepth 8000

namespace Vera

/-! ### Characters used throughout -/

def nl : Char := Char.ofNat 10

def lb : Char := Char.ofNat 123

def rb : Char := Char.ofNat 125

/-! ### Python string builtins, modelled -/

/-- Does `pat` start the list `s`? (Python startswith / substring check helper.) -/
def isPrefixList : List Char → List Char → Bool
  | [], _ => true
  | _ :: _, [] => false
  | a :: as, b :: bs => a = b && isPrefixList as bs

/-- Number of (possibly overlapping) starting positions at which `needle`
occurs inside `hay`. -/
def countOcc (needle hay : List Char) : Nat :=
  (List.range (hay.length + 1)).countP (fun i => isPrefixList needle (hay.drop i))

/-- Python `s.find(c, start)`: the least index `i ≥ start` with `s[i] = c`,
as an `Option` (`none` plays the role of Python's `-1`). -/
def pyFind (c : Char) : List Char → Nat → Option Nat
  | [], _ => none
  | a :: as, 0 => if a = c then some 0 else (pyFind c as 0).map (· + 1)
  | _ :: as, n + 1 => (pyFind c as n).map (· + 1)

/-- Worker for `pyReplace`; the fuel is an upper bound on the scan length and
never runs out when it starts at the length of the string. -/
def pyReplaceAux (pat rep : List Char) : Nat → List Char → List Char
  | _, [] => []
  | 0, s => s
  | fuel + 1, c :: cs =>
    if !pat.isEmpty && isPrefixList pat (c :: cs) then
      rep ++ pyReplaceAux pat rep fuel (List.drop (pat.length - 1) cs)
    else
      c :: pyReplaceAux pat rep fuel cs

/-- Python `s.replace(pat, rep)` for a non-empty `pat`: replace every
non-overlapping occurrence, scanning left to right. -/
def pyReplace (pat rep s : List Char) : List Char :=
  pyReplaceAux pat rep s.length s

/-- Python `s.split(sep)` with an explicit one-character separator:
`"".split(";") = [""]`, `"a;b".split(";") = ["a", "b"]`. -/
def pySplit (sep : Char) : List Char → List (List Char)
  | [] => [[]]
  | c :: cs =>
    if c = sep then [] :: pySplit sep cs
    else
      match pySplit sep cs with
      | [] => [[c]]
      | h :: t => (c :: h) :: t

/-- Python whitespace stripped by `int()` (space, tab, LF, CR, VT, FF). -/
def isPySpace (c : Char) : Bool :=
  c = ' ' || c = Char.ofNat 9 || c = Char.ofNat 10 || c = Char.ofNat 13 ||
  c = Char.ofNat 11 || c = Char.ofNat 12

def isPyDigit (c : Char) : Bool :=
  48 ≤ c.toNat && c.toNat ≤ 57

def digitsVal (ds : List Char) : Nat :=
  ds.foldl (fun a c => 10 * a + (c.toNat - 48)) 0

def pyStrip (s : List Char) : List Char :=
  ((s.dropWhile isPySpace).reverse.dropWhile isPySpace).reverse

/-- Python `int(s)`: optional surrounding whitespace, optional sign, then a
non-empty run of decimal digits; anything else raises `ValueError`, modelled
as `none`.  (Digit-group underscores are not modelled; the program's inputs
never contain them.) -/
def pyIntParse (s : List Char) : Option Int :=
  match pyStrip s with
  | [] => none
  | c :: cs =>
    if c = '+' then
      if !cs.isEmpty && cs.all isPyDigit then some (Int.ofNat (digitsVal cs)) else none
    else if c = '-' then
      if !cs.isEmpty && cs.all isPyDigit then some (-(Int.ofNat (digitsVal cs))) else none
    else
      if (c :: cs).all isPyDigit then some (Int.ofNat (digitsVal (c :: cs))) else none

/-- Python slicing `l[:n]` for an `int` bound `n`: the first `n` items when
`n ≥ 0`, everything but the last `-n` items when `n < 0`. -/
def pySliceTo {α : Type} (l : List α) (n : Int) : List α :=
  if n < 0 then l.take (l.length - (-n).toNat) else l.take n.toNat

/-- Python truthiness of the optional string argument `full_context`:
`None` and the empty string are falsy. -/
def pyTruthy : Option (List Char) → Bool
  | none => false
  | some s => !s.isEmpty

/-! ### JSON values and Python exceptions -/

/-- The exceptions the embedded code can raise or catch. -/
inductive PyErr where
  | keyError
  | typeError
  | attributeError
  | valueError
deriving DecidableEq

/-- A parsed JSON value (numbers as integers; no claim touches JSON floats). -/
inductive JValue where
  | null
  | bool (b : Bool)
  | num (n : Int)
  | str (s : List Char)
  | arr (elems : List JValue)
  | obj (fields : List (List Char × JValue))

/-- Python `dict.get` on a dict built from a JSON object: with duplicate
keys the later binding wins, as in `json.loads`. -/
def dictGet (fields : List (List Char × JValue)) (key : List Char) : Option JValue :=
  match fields with
  | [] => none
  | (k, v) :: rest =>
    match dictGet rest key with
    | some r => some r
    | none => if k = key then some v else none

/-! ### vera_agent.VeraAgent._call_ollama -/

/-- Outcome of the one `requests.post` exchange inside `_call_ollama`:
either a transport failure (`requests.exceptions.RequestException`, which
includes the `raise_for_status` HTTP errors), or a transport success whose
body either failed JSON decoding (`none`) or parsed to a JSON value. -/
inductive TransportOutcome where
  | failure (errText : List Char)
  | success (parsedBody : Option JValue)

/-- Model of `VeraAgent._call_ollama`, as a function of the transport outcome.  The
returned pair is `(result['response'], result.get('context'))`; the two
`except` clauses catch only `RequestException` and `json.JSONDecodeError`,
so a missing `'response'` key raises `KeyError` (`Except.error`), and a
non-object body raises `TypeError` on subscripting. -/
def call_ollama (T : Type) (prompt model : List Char) (temperature : T) :
    TransportOutcome → Except PyErr (JValue × Option JValue)
  | .failure e => .ok (.str (("Error communicating with Ollama: ").toList ++ e), none)
  | .success none => .ok (.str ("Failed to parse JSON response.").toList, none)
  | .success (some v) =>
    match v with
    | .obj fields =>
      match dictGet fields (("response").toList) with
      | some r => .ok (r, dictGet fields (("context").toList))
      | none => .error .keyError
    | _ => .error .attributeError

/-! ### vera_agent.VeraAgent._generate_list_from_llm -/

/-- Model of `VeraAgent._generate_list_from_llm`, as a function of the parsed JSON of
the LLM response text (`none` models `json.loads` raising
`JSONDecodeError`, which the function catches and turns into `[]`).  The
extracted value is sliced with `[:count]`; a parsed non-object body raises
`AttributeError` on `.get`, and a non-sliceable extracted value raises
`TypeError`. -/
def generate_list_from_llm (listType : List Char) (count : Int)
    (parsed : Option JValue) : Except PyErr JValue :=
  match parsed with
  | none => .ok (.arr [])
  | some (JValue.obj fields) =>
    match dictGet fields listType with
    | none => .ok (.arr [])
    | some (JValue.arr l) => .ok (.arr (pySliceTo l count))
    | some (JValue.str s) => .ok (.str (pySliceTo s count))
    | some _ => .error .typeError
  | some _ => .error .attributeError

/-! ### ask_vera.main domain-argument resolution and vera_agent.get_domains -/

/-- The tagged shape of the `domains_input` value `ask_vera.main` passes to
`VeraAgent.get_domains`: an `int` count or an explicit list of strings. -/
inductive DomainsInput where
  | count (n : Int)
  | explicit (l : List (List Char))

/-- Model of `ask_vera.main` lines 88-93: `int(args.domains)` on success gives a
count (and `domains = None`), on `ValueError` the string is split on
semicolons into an explicit list (always non-empty, so `domains or
num_domains` passes the list itself). -/
def resolve_domains_arg (s : List Char) : DomainsInput :=
  match pyIntParse s with
  | some n => .count n
  | none => .explicit (pySplit ';' s)

/-- Model of `VeraAgent.get_domains`, with the LLM-backed generation call abstracted
as `gen`.  The second component is the log of generation calls made (the
count requested by each). -/
def get_domains (gen : Int → List (List Char)) : DomainsInput → List (List Char) × List Int
  | .count n => (gen n, [n])
  | .explicit l => (l, [])

/-- CLI resolution followed by `get_domains`, exactly as `ask_vera.main`
wires them. -/
def cli_get_domains (gen : Int → List (List Char)) (s : List Char) :
    List (List Char) × List Int :=
  get_domains gen (resolve_domains_arg s)

/-! ### vera_agent.VeraAgent.get_instruction_prompt / process_domain -/

/-- The configuration keys of vera.yaml that the prompt builder reads. -/
structure VeraConfig where
  abstraction_intro_template : List Char
  string_domains_template : List Char
  framework_template : List Char
  mapping_template : List Char
  requirements_template : List Char
  num_concepts : Nat

/-- Model of `VeraAgent.get_instruction_prompt`: five template fragments concatenated
in fixed order, with `<domains>` and `<num_concepts>` substituted. -/
def get_instruction_prompt (cfg : VeraConfig) (domain : List Char) : List Char :=
  cfg.abstraction_intro_template
    ++ pyReplace (("<domains>").toList) domain cfg.string_domains_template
    ++ pyReplace (("<num_concepts>").toList) (Nat.toDigits 10 cfg.num_concepts)
        cfg.framework_template
    ++ cfg.mapping_template
    ++ cfg.requirements_template

/-- The `final_prompt` string built inside `VeraAgent.process_domain`:
the with-context form when `full_context` is truthy, the bare
header+instruction+query form otherwise. -/
def final_prompt_for_domain (cfg : VeraConfig) (q domain : List Char)
    (full_context : Option (List Char)) : List Char :=
  if pyTruthy full_context then
    ("INSTRUCTION PROMPT:\n\n").toList ++ get_instruction_prompt cfg domain
      ++ ("\n\n").toList ++ q
      ++ ("\n\nCONTEXT:\n\n").toList ++ full_context.getD []
      ++ ("\n\n** REMINDER **\n\nINSTRUCTION PROMPT:\n\n").toList
      ++ get_instruction_prompt cfg domain ++ ("\n\n").toList ++ q
  else
    ("INSTRUCTION PROMPT:\n\n").toList ++ get_instruction_prompt cfg domain
      ++ ("\n\n").toList ++ q

/-- Model of `VeraAgent.process_domain` with the LLM call abstracted as `llm`. -/
def process_domain (cfg : VeraConfig) (llm : List Char → List Char)
    (q domain : List Char) (full_context : Option (List Char)) : List Char :=
  llm (final_prompt_for_domain cfg q domain full_context)

/-! ### vera_agent.VeraAgent.get_intelligent_context -/

/-- The blob `"\n\n".join(context_files)`. -/
def full_context_of (docs : List (List Char)) : List Char :=
  List.intercalate (("\n\n").toList) docs

/-- The split point computed in `get_intelligent_context`:
`full_context.find('\n', len(full_context) // 2)`, falling back to the
midpoint when no newline is found. -/
def split_point_of (s : List Char) : Nat :=
  match pyFind nl s (s.length / 2) with
  | some i => i
  | none => s.length / 2

/-- The `insertion_text` f-string of `get_intelligent_context`. -/
def insertion_text (instr q : List Char) : List Char :=
  ("\n\n").toList ++ instr ++ ("\n\n").toList
    ++ ("QUESTION:\n\n** ").toList ++ q ++ (" **\n\n").toList

/-- Model of `VeraAgent.get_intelligent_context`. -/
def get_intelligent_context (instr q : List Char) (docs : List (List Char)) : List Char :=
  (full_context_of docs).take (split_point_of (full_context_of docs))
    ++ insertion_text instr q
    ++ (full_context_of docs).drop (split_point_of (full_context_of docs))

/-- The `full_context_for_llm` value `ask_vera.main` passes to every
`process_domain` call: the spliced context when context files were supplied,
the empty string otherwise. -/
def driver_context_arg (instr q : List Char) (ctx_docs : List (List Char)) : List Char :=
  if ctx_docs.isEmpty then [] else get_intelligent_context instr q ctx_docs

/-! ### Python str.format, and vera_agent.VeraAgent.synthesize_wisdom -/

/-- One token of a scanned format string: a literal character or a
replacement field with its name. -/
inductive FmtTok where
  | ch (c : Char)
  | slot (name : List Char)

/-- Scanner for Python `str.format` templates restricted to plain named
fields (no conversions or format specs, which the program's templates do not
use): `\x7b\x7b` and `\x7d\x7d` are literal braces, `\x7bname\x7d` is a
field, and unbalanced braces raise `ValueError`.  The second argument is the
field name being accumulated, `none` outside a field. -/
def fmtTokens : List Char → Option (List Char) → Except PyErr (List FmtTok)
  | [], none => .ok []
  | [], some _ => .error .valueError
  | c :: cs, none =>
    if c = lb then
      match cs with
      | [] => .error .valueError
      | d :: ds =>
        if d = lb then (fmtTokens ds none).map (fun ts => .ch lb :: ts)
        else fmtTokens (d :: ds) (some [])
    else if c = rb then
      match cs with
      | [] => .error .valueError
      | d :: ds =>
        if d = rb then (fmtTokens ds none).map (fun ts => .ch rb :: ts)
        else .error .valueError
    else (fmtTokens cs none).map (fun ts => .ch c :: ts)
  | c :: cs, some acc =>
    if c = rb then (fmtTokens cs none).map (fun ts => .slot acc :: ts)
    else if c = lb then .error .valueError
    else fmtTokens cs (some (acc ++ [c]))

/-- Renders scanned tokens with keyword arguments `responses=resp` and
`query=q`; any other field name raises `KeyError`, as `str.format` does for
an unknown keyword. -/
def renderToks (resp q : List Char) : List FmtTok → Except PyErr (List Char)
  | [] => .ok []
  | .ch c :: ts => (renderToks resp q ts).map (fun t => c :: t)
  | .slot nm :: ts =>
    if nm = ("responses").toList then (renderToks resp q ts).map (fun t => resp ++ t)
    else if nm = ("query").toList then (renderToks resp q ts).map (fun t => q ++ t)
    else .error .keyError

/-- Model of `tmpl.format(responses=resp, query=q)`. -/
def pyFormat (tmpl resp q : List Char) : Except PyErr (List Char) :=
  match fmtTokens tmpl none with
  | .ok ts => renderToks resp q ts
  | .error e => .error e

/-- The replacement field `\x7bname\x7d` as literal template text. -/
def fmt_slot (nm : List Char) : List Char :=
  lb :: (nm ++ [rb])

/-- Model of `VeraAgent.synthesize_wisdom` with the LLM call abstracted as `llm`:
formats the synthesis template with the newline-joined responses and the
query, calls the LLM on the result, and returns both the generated text and
the exact prompt sent. -/
def synthesize_wisdom (tmpl : List Char) (llm : List Char → List Char)
    (q : List Char) (responses : List (List Char)) :
    Except PyErr (List Char × List Char) :=
  match pyFormat tmpl (List.intercalate [nl] responses) q with
  | .ok p => .ok (llm p, p)
  | .error e => .error e

/-! ### ask_vera.main fan-out collection -/

/-- The fragment collection loop of `ask_vera.main`: each domain's task
outcome is either a response or a raised exception; raised exceptions are
caught, logged and dropped, every successful response is kept. -/
def fan_out_collect (out : List Char → Except (List Char) (List Char))
    (ds : List (List Char)) : List (List Char) :=
  ds.filterMap (fun d => (out d).toOption)

/-- The tail of `ask_vera.main`: collect the surviving fragments, then make
the synthesis call with them. -/
def run_fan_out_and_synthesize (tmpl : List Char) (llm : List Char → List Char)
    (q : List Char) (out : List Char → Except (List Char) (List Char))
    (ds : List (List Char)) : Except PyErr (List Char × List Char) :=
  synthesize_wisdom tmpl llm q (fan_out_collect out ds)

/-! ### Concrete fixtures used by counterexamples and witnesses -/

/-- A minimal configuration whose instruction prompt is the single letter
`Z` for every domain. -/
def cfg0 : VeraConfig :=
  { abstraction_intro_template := ("Z").toList
    string_domains_template := []
    framework_template := []
    mapping_template := []
    requirements_template := []
    num_concepts := 1 }

/-- Three-domain task outcomes where exactly the domain `b` raises. -/
def out3 : List Char → Except (List Char) (List Char) :=
  fun d => if d = ("b").toList then .error (("boom").toList) else .ok d

/-! ## Lemmas about the modelled builtins -/

theorem pyFind_some (c : Char) :
    ∀ (s : List Char) (start i : Nat), pyFind c s start = some i →
      start ≤ i ∧ s[i]? = some c ∧ ∀ k, start ≤ k → k < i → s[k]? ≠ some c := by
  intro s
  induction s with
  | nil => intro start i h; simp [pyFind] at h
  | cons a as ih =>
    intro start i h
    cases start with
    | zero =>
      by_cases hac : a = c
      · simp [pyFind, hac] at h
        subst h
        refine ⟨Nat.le_refl 0, by simp [hac], ?_⟩
        intro k _ hk
        omega
      · simp [pyFind, hac] at h
        obtain ⟨i', hi', hii⟩ := h
        obtain ⟨_, hget, hmin⟩ := ih 0 i' hi'
        subst hii
        refine ⟨Nat.zero_le _, by simpa using hget, ?_⟩
        intro k _ hk
        cases k with
        | zero => simp [hac]
        | succ k' =>
          have := hmin k' (Nat.zero_le _) (by omega)
          simpa using this
    | succ n =>
      simp [pyFind] at h
      obtain ⟨i', hi', hii⟩ := h
      obtain ⟨hle, hget, hmin⟩ := ih n i' hi'
      subst hii
      refine ⟨by omega, by simpa using hget, ?_⟩
      intro k hk1 hk2
      cases k with
      | zero => omega
      | succ k' =>
        have := hmin k' (by omega) (by omega)
        simpa using this

theorem pyFind_none (c : Char) :
    ∀ (s : List Char) (start : Nat), pyFind c s start = none →
      ∀ j, start ≤ j → s[j]? ≠ some c := by
  intro s
  induction s with
  | nil => intro start _ j _; simp
  | cons a as ih =>
    intro start h j hj
    cases start with
    | zero =>
      by_cases hac : a = c
      · simp [pyFind, hac] at h
      · simp [pyFind, hac] at h
        cases j with
        | zero => simp [hac]
        | succ j' =>
          have := ih 0 h j' (Nat.zero_le _)
          simpa using this
    | succ n =>
      simp [pyFind] at h
      cases j with
      | zero => omega
      | succ j' =>
        have := ih n h j' (by omega)
        simpa using this

/-! ## Claims -/

/-- Claim C1: for every list of context documents, with `s` the blank-line
join of the documents and `L` its length, the instruction-block insertion
point computed by `get_intelligent_context` is the index of the first
newline at or after `L / 2` when one exists, and `L / 2` exactly when no
newline occurs at or after the midpoint. -/
theorem C1_insertion_point (docs : List (List Char)) :
    ((∀ j, (full_context_of docs).length / 2 ≤ j →
        (full_context_of docs)[j]? ≠ some nl) →
      split_point_of (full_context_of docs) = (full_context_of docs).length / 2)
    ∧ (∀ j, (full_context_of docs).length / 2 ≤ j →
        (full_context_of docs)[j]? = some nl →
        (∀ k, (full_context_of docs).length / 2 ≤ k → k < j →
          (full_context_of docs)[k]? ≠ some nl) →
        split_point_of (full_context_of docs) = j) := by
  set s := full_context_of docs with hs
  constructor
  · intro hno
    unfold split_point_of
    cases hm : pyFind nl s (s.length / 2) with
    | none => rfl
    | some i =>
      obtain ⟨hle, hget, _⟩ := pyFind_some nl s _ i hm
      exact absurd hget (hno i hle)
  · intro j hj hnl hmin
    unfold split_point_of
    cases hm : pyFind nl s (s.length / 2) with
    | none => exact absurd hnl (pyFind_none nl s _ hm j hj)
    | some i =>
      obtain ⟨hle, hget, hmini⟩ := pyFind_some nl s _ i hm
      rcases Nat.lt_trichotomy i j with hlt | heq | hgt
      · exact absurd hget (hmin i hle hlt)
      · simpa using heq
      · exact absurd hnl (hmini j hj hgt)

/-- Witness for C1 at concrete inputs: for the documents `["ab\ncd", "e"]`
the joined blob is `"ab\ncd\n\ne"` (length 8, midpoint 4) and the insertion
point is the first newline at or after 4, namely index 5; for `["xy"]`
there is no newline at or after the midpoint 1 and the insertion point is
exactly 1. -/
theorem C1_insertion_point_witness :
    split_point_of (full_context_of [("ab\ncd").toList, ("e").toList]) = 5
    ∧ split_point_of (full_context_of [("xy").toList]) = 1 := by
  constructor
  · apply (C1_insertion_point [("ab\ncd").toList, ("e").toList]).2 5
      (by decide) (by decide)
    intro k hk1 hk2
    have hlen : (full_context_of [("ab\ncd").toList, ("e").toList]).length = 8 := by
      decide
    rw [hlen] at hk1
    have hk : k = 4 := by omega
    subst hk
    decide
  · apply (C1_insertion_point [("xy").toList]).1
    intro j hj
    have hlen : (full_context_of [("xy").toList]).length = 2 := by decide
    rw [hlen] at hj
    rcases Nat.lt_or_ge j 2 with h2 | h2
    · have hj1 : j = 1 := by omega
      subst hj1
      decide
    · have hle : (full_context_of [("xy").toList]).length ≤ j := by
        rw [hlen]; exact h2
      intro hcon
      rw [List.getElem?_eq_none hle] at hcon
      simp at hcon

/-- Claim C2: the splice is lossless: the output of
`get_intelligent_context` is the original joined context blob with the
insertion block (blank line, instruction prompt, blank line, `QUESTION:`
marker, blank line, the query wrapped in `** ... **`, blank line) inserted
at one point, so removing the inserted block reconstructs the original blob
character for character. -/
theorem C2_lossless_splice (instr q : List Char) (docs : List (List Char)) :
    ∃ pre post : List Char,
      get_intelligent_context instr q docs = pre ++ insertion_text instr q ++ post
      ∧ pre ++ post = full_context_of docs := by
  refine ⟨(full_context_of docs).take (split_point_of (full_context_of docs)),
    (full_context_of docs).drop (split_point_of (full_context_of docs)), rfl, ?_⟩
  exact List.take_append_drop _ _

/-- Counterexample to claim C3 as stated: with the configuration whose
instruction prompt is `Z`, query `Q` and context string `Z`, the final
per-domain prompt contains three occurrences of the instruction prompt, not
exactly two — the context itself and the literal `CONTEXT:` section can add
occurrences beyond the two designated ones. -/
theorem C3_counterexample :
    get_instruction_prompt cfg0 (("d").toList) = ("Z").toList
    ∧ countOcc (("Z").toList)
        (final_prompt_for_domain cfg0 (("Q").toList) (("d").toList)
          (some (("Z").toList))) = 3 := by
  exact ⟨by decide, by decide⟩

/-- Claim C3 (amended): for every configuration, domain, query and
non-empty context string, the per-domain prompt is exactly the
concatenation `INSTRUCTION PROMPT:` header, instruction prompt, query,
`CONTEXT:` section with the context, and a `** REMINDER **` section
repeating the header+instruction+query block verbatim — so the instruction
prompt and the query each appear at exactly two designated places (the
total occurrence count can exceed two only when the context or the fixed
separators happen to contain them); with no context the prompt is exactly
the single header+instruction+query block. -/
theorem C3_prompt_structure (cfg : VeraConfig) (q domain ctx : List Char)
    (h : ctx ≠ []) :
    final_prompt_for_domain cfg q domain (some ctx)
      = ("INSTRUCTION PROMPT:\n\n").toList ++ get_instruction_prompt cfg domain
        ++ ("\n\n").toList ++ q
        ++ ("\n\nCONTEXT:\n\n").toList ++ ctx
        ++ ("\n\n** REMINDER **\n\nINSTRUCTION PROMPT:\n\n").toList
        ++ get_instruction_prompt cfg domain ++ ("\n\n").toList ++ q
    ∧ final_prompt_for_domain cfg q domain none
      = ("INSTRUCTION PROMPT:\n\n").toList ++ get_instruction_prompt cfg domain
        ++ ("\n\n").toList ++ q := by
  have hne : ctx.isEmpty = false := by
    cases ctx with
    | nil => exact absurd rfl h
    | cons a as => rfl
  constructor
  · simp [final_prompt_for_domain, pyTruthy, hne, Option.getD]
  · rfl

/-- Witness for C3 (amended) at a concrete configuration, query `Q`,
domain `d` and context `Z`. -/
theorem C3_prompt_structure_witness :
    final_prompt_for_domain cfg0 (("Q").toList) (("d").toList) (some (("Z").toList))
      = ("INSTRUCTION PROMPT:\n\n").toList ++ get_instruction_prompt cfg0 (("d").toList)
        ++ ("\n\n").toList ++ ("Q").toList
        ++ ("\n\nCONTEXT:\n\n").toList ++ ("Z").toList
        ++ ("\n\n** REMINDER **\n\nINSTRUCTION PROMPT:\n\n").toList
        ++ get_instruction_prompt cfg0 (("d").toList) ++ ("\n\n").toList ++ ("Q").toList
    ∧ final_prompt_for_domain cfg0 (("Q").toList) (("d").toList) none
      = ("INSTRUCTION PROMPT:\n\n").toList ++ get_instruction_prompt cfg0 (("d").toList)
        ++ ("\n\n").toList ++ ("Q").toList :=
  C3_prompt_structure cfg0 (("Q").toList) (("d").toList) (("Z").toList) (by decide)

/-- Claim C4: when the command-line domains string parses as an integer the
resolver issues exactly one domain-generation call requesting exactly that
many domains; when it does not parse as an integer it is split on
semicolons and that explicit list is returned unchanged with no generation
call made. -/
theorem C4_domain_resolution (gen : Int → List (List Char)) (s : List Char)
    (n : Int) :
    (pyIntParse s = some n → cli_get_domains gen s = (gen n, [n]))
    ∧ (pyIntParse s = none → cli_get_domains gen s = (pySplit ';' s, [])) := by
  constructor
  · intro h
    simp [cli_get_domains, resolve_domains_arg, h, get_domains]
  · intro h
    simp [cli_get_domains, resolve_domains_arg, h, get_domains]

/-- Witness for C4: input `"3"` yields one generation call with count 3;
input `"coaching soccer;parenting"` yields the explicit list
`["coaching soccer", "parenting"]` and an empty call log. -/
theorem C4_domain_resolution_witness :
    cli_get_domains (fun _ => []) (("3").toList)
      = ((fun (_ : Int) => ([] : List (List Char))) 3, [3])
    ∧ cli_get_domains (fun _ => []) (("coaching soccer;parenting").toList)
      = (pySplit ';' (("coaching soccer;parenting").toList), [])
    ∧ pySplit ';' (("coaching soccer;parenting").toList)
      = [("coaching soccer").toList, ("parenting").toList] := by
  refine ⟨?_, ?_, by decide⟩
  · exact (C4_domain_resolution (fun _ => []) (("3").toList) 3).1 (by decide)
  · exact (C4_domain_resolution (fun _ => []) (("coaching soccer;parenting").toList) 0).2
      (by decide)

/-- Counterexample to claim C5 as stated: domain generation does not pad —
with requested count 2 and a parsed response whose `domains` list has a
single entry, the result is that one-entry list, not a list of exactly 2
entries. -/
theorem C5_counterexample :
    generate_list_from_llm (("domains").toList) 2
        (some (.obj [((("domains").toList), .arr [.str (("a").toList)])]))
      = .ok (.arr [.str (("a").toList)])
    ∧ [JValue.str (("a").toList)].length ≠ 2 := by
  exact ⟨rfl, by decide⟩

/-- Claim C5 (amended): for every non-negative requested count `N`, the
extracted list is truncated to at most `N` entries — the result length is
`min N (length of the extracted list)`, with no padding — and if the JSON
does not parse or the key is absent the result is the empty list rather
than an exception. -/
theorem C5_truncation (listType : List Char) (count : Int)
    (fields : List (List Char × JValue)) (l : List JValue) (hc : 0 ≤ count) :
    (dictGet fields listType = some (.arr l) →
      generate_list_from_llm listType count (some (.obj fields))
        = .ok (.arr (l.take count.toNat))
      ∧ (l.take count.toNat).length = min count.toNat l.length)
    ∧ generate_list_from_llm listType count none = .ok (.arr [])
    ∧ (dictGet fields listType = none →
      generate_list_from_llm listType count (some (.obj fields)) = .ok (.arr [])) := by
  refine ⟨?_, rfl, ?_⟩
  · intro h
    constructor
    · simp only [generate_list_from_llm, h, pySliceTo]
      rw [if_neg (by omega)]
    · exact List.length_take _ _
  · intro h
    simp [generate_list_from_llm, h]

/-- Witness for C5 (amended) at count 2 over a one-entry extracted list. -/
theorem C5_truncation_witness :
    generate_list_from_llm (("domains").toList) 2
        (some (.obj [((("domains").toList), .arr [.str (("a").toList)])]))
      = .ok (.arr ([JValue.str (("a").toList)].take (Int.toNat 2)))
    ∧ ([JValue.str (("a").toList)].take (Int.toNat 2)).length
      = min (Int.toNat 2) [JValue.str (("a").toList)].length :=
  (C5_truncation (("domains").toList) 2
    [((("domains").toList), .arr [.str (("a").toList)])]
    [JValue.str (("a").toList)] (by decide)).1 rfl

/-- Claim C6: for every prompt, model and temperature, the LLM client call
never raises on a failed transport exchange — it returns the textual error
message as the response with a null continuation token — and on a transport
success whose body is unparseable it returns the fixed placeholder text. -/
theorem C6_transport_degrade (T : Type) (prompt model : List Char) (temp : T)
    (e : List Char) :
    call_ollama T prompt model temp (.failure e)
      = .ok (.str ((("Error communicating with Ollama: ").toList ++ e)), none)
    ∧ call_ollama T prompt model temp (.success none)
      = .ok (.str (("Failed to parse JSON response.").toList), none) :=
  ⟨rfl, rfl⟩

/-- Claim C9: the empty context string — the value the CLI driver passes
whenever zero context files are supplied — is treated exactly like an
absent context: the prompt built is the no-context form, identical to the
prompt built when the context argument is omitted. -/
theorem C9_empty_context (cfg : VeraConfig) (q domain instr qq : List Char) :
    driver_context_arg instr qq [] = []
    ∧ final_prompt_for_domain cfg q domain (some [])
      = final_prompt_for_domain cfg q domain none
    ∧ final_prompt_for_domain cfg q domain (some [])
      = ("INSTRUCTION PROMPT:\n\n").toList ++ get_instruction_prompt cfg domain
        ++ ("\n\n").toList ++ q :=
  ⟨rfl, rfl, rfl⟩

/-- Claim C10: on a transport success whose body parses as a JSON object
lacking the `response` key, the LLM client raises `KeyError` to its caller
instead of degrading to a string as the other failure branches do. -/
theorem C10_missing_response_key (T : Type) (prompt model : List Char) (temp : T)
    (fields : List (List Char × JValue))
    (h : dictGet fields (("response").toList) = none) :
    call_ollama T prompt model temp (.success (some (.obj fields)))
      = .error .keyError := by
  have h2 : dictGet fields ['r', 'e', 's', 'p', 'o', 'n', 's', 'e'] = none := h
  simp [call_ollama, h2]

/-- Witness for C10 at the empty JSON object. -/
theorem C10_missing_response_key_witness :
    call_ollama Nat [] [] 0 (.success (some (.obj []))) = .error .keyError :=
  C10_missing_response_key Nat [] [] 0 [] rfl

theorem fan_out_collect_length (out : List Char → Except (List Char) (List Char)) :
    ∀ ds : List (List Char),
      (fan_out_collect out ds).length
        + ds.countP (fun d => ((out d).toOption).isNone) = ds.length := by
  intro ds
  induction ds with
  | nil => rfl
  | cons a as ih =>
    simp only [fan_out_collect] at ih ⊢
    rw [List.filterMap_cons, List.countP_cons]
    cases h : (out a).toOption with
    | none => simp [h]; omega
    | some v => simp [h]; omega

/-- Claim C7: fan-out fault tolerance — for every list of N resolved
domains whose task outcomes contain exactly one raised exception, the
collected fragment set has exactly N-1 entries, the failing domain is
dropped, every successfully completed domain's response is kept unchanged,
and the run proceeds to the synthesis call with exactly the collected
fragments.  (The log line printed for the failing domain is console I/O and
is outside the embedding.) -/
theorem C7_fanout_fault_tolerance (tmpl : List Char) (llm : List Char → List Char)
    (q : List Char) (out : List Char → Except (List Char) (List Char))
    (ds : List (List Char))
    (h : ds.countP (fun d => ((out d).toOption).isNone) = 1) :
    (fan_out_collect out ds).length = ds.length - 1
    ∧ (∀ d r, d ∈ ds → out d = .ok r → r ∈ fan_out_collect out ds)
    ∧ run_fan_out_and_synthesize tmpl llm q out ds
      = synthesize_wisdom tmpl llm q (fan_out_collect out ds) := by
  refine ⟨?_, ?_, rfl⟩
  · have hl := fan_out_collect_length out ds
    omega
  · intro d r hd hr
    have hsome : (out d).toOption = some r := by rw [hr]; rfl
    exact List.mem_filterMap.mpr ⟨d, hd, hsome⟩

/-- Witness for C7: three domains `a`, `b`, `c` where exactly `b` raises;
two fragments survive. -/
theorem C7_fanout_fault_tolerance_witness :
    [("a").toList, ("b").toList, ("c").toList].countP
        (fun d => ((out3 d).toOption).isNone) = 1
    ∧ (fan_out_collect out3 [("a").toList, ("b").toList, ("c").toList]).length
      = [("a").toList, ("b").toList, ("c").toList].length - 1 := by
  refine ⟨by decide, ?_⟩
  exact (C7_fanout_fault_tolerance [] (fun s => s) [] out3
    [("a").toList, ("b").toList, ("c").toList] (by decide)).1

/-! ### Lemmas about the modelled str.format -/

theorem fmtTokens_nobrace_only :
    ∀ s : List Char, lb ∉ s → rb ∉ s →
      fmtTokens s none = .ok (s.map FmtTok.ch) := by
  intro s
  induction s with
  | nil => intro _ _; rfl
  | cons a as ih =>
    intro h1 h2
    have ha1 : a ≠ lb := (List.ne_of_not_mem_cons h1).symm
    have ha2 : a ≠ rb := (List.ne_of_not_mem_cons h2).symm
    rw [fmtTokens.eq_def]
    simp [ha1, ha2,
      ih (List.not_mem_of_not_mem_cons h1) (List.not_mem_of_not_mem_cons h2),
      Except.map]

theorem fmtTokens_nobrace_append (rest : List Char) :
    ∀ pre : List Char, lb ∉ pre → rb ∉ pre →
      fmtTokens (pre ++ rest) none
        = (fmtTokens rest none).map (fun ts => pre.map FmtTok.ch ++ ts) := by
  intro pre
  induction pre with
  | nil =>
    intro _ _
    simp only [List.nil_append, List.map_nil]
    cases h : fmtTokens rest none <;> rfl
  | cons a pre ih =>
    intro h1 h2
    have ha1 : a ≠ lb := (List.ne_of_not_mem_cons h1).symm
    have ha2 : a ≠ rb := (List.ne_of_not_mem_cons h2).symm
    rw [List.cons_append, fmtTokens.eq_def]
    simp only [ha1, ha2, if_false,
      ih (List.not_mem_of_not_mem_cons h1) (List.not_mem_of_not_mem_cons h2)]
    cases h : fmtTokens rest none <;> simp [Except.map]

theorem fmtTokens_inslot (rest : List Char) :
    ∀ nm acc : List Char, lb ∉ nm → rb ∉ nm →
      fmtTokens (nm ++ rb :: rest) (some acc)
        = (fmtTokens rest none).map (fun ts => FmtTok.slot (acc ++ nm) :: ts) := by
  intro nm
  induction nm with
  | nil =>
    intro acc _ _
    rw [List.nil_append, fmtTokens.eq_def]
    simp
  | cons a nm ih =>
    intro acc h1 h2
    have ha1 : a ≠ lb := (List.ne_of_not_mem_cons h1).symm
    have ha2 : a ≠ rb := (List.ne_of_not_mem_cons h2).symm
    rw [List.cons_append, fmtTokens.eq_def]
    simp only [ha1, ha2, if_false,
      ih (acc ++ [a]) (List.not_mem_of_not_mem_cons h1) (List.not_mem_of_not_mem_cons h2)]
    have hacc : (acc ++ [a]) ++ nm = acc ++ a :: nm := by simp
    rw [hacc]

theorem fmtTokens_slot (nm rest : List Char) (h0 : nm ≠ []) (h1 : lb ∉ nm)
    (h2 : rb ∉ nm) :
    fmtTokens (lb :: (nm ++ rb :: rest)) none
      = (fmtTokens rest none).map (fun ts => FmtTok.slot nm :: ts) := by
  cases nm with
  | nil => exact absurd rfl h0
  | cons a nm' =>
    have ha1 : a ≠ lb := (List.ne_of_not_mem_cons h1).symm
    rw [List.cons_append, fmtTokens.eq_def]
    simp only [if_pos rfl, ha1, if_false]
    have := fmtTokens_inslot rest (a :: nm') [] h1 h2
    rw [List.cons_append] at this
    simpa using this

theorem fmtTokens_two_slots (pre mid post nm1 nm2 : List Char)
    (hp1 : lb ∉ pre) (hp2 : rb ∉ pre) (hm1 : lb ∉ mid) (hm2 : rb ∉ mid)
    (ho1 : lb ∉ post) (ho2 : rb ∉ post)
    (hn1 : nm1 ≠ []) (hn1l : lb ∉ nm1) (hn1r : rb ∉ nm1)
    (hn2 : nm2 ≠ []) (hn2l : lb ∉ nm2) (hn2r : rb ∉ nm2) :
    fmtTokens (pre ++ (lb :: (nm1 ++ rb :: (mid ++ (lb :: (nm2 ++ rb :: post)))))) none
      = .ok (pre.map FmtTok.ch
          ++ FmtTok.slot nm1 :: (mid.map FmtTok.ch
          ++ FmtTok.slot nm2 :: post.map FmtTok.ch)) := by
  rw [fmtTokens_nobrace_append _ pre hp1 hp2,
    fmtTokens_slot nm1 _ hn1 hn1l hn1r,
    fmtTokens_nobrace_append _ mid hm1 hm2,
    fmtTokens_slot nm2 _ hn2 hn2l hn2r,
    fmtTokens_nobrace_only post ho1 ho2]
  rfl

theorem renderToks_ch_append (resp q : List Char) (ts : List FmtTok) :
    ∀ pre : List Char,
      renderToks resp q (pre.map FmtTok.ch ++ ts)
        = (renderToks resp q ts).map (fun t => pre ++ t) := by
  intro pre
  induction pre with
  | nil =>
    simp only [List.map_nil, List.nil_append]
    cases h : renderToks resp q ts <;> rfl
  | cons a pre ih =>
    rw [List.map_cons, List.cons_append, renderToks.eq_def]
    simp only [ih]
    cases h : renderToks resp q ts <;> rfl

theorem renderToks_slot_responses (resp q : List Char) (ts : List FmtTok) :
    renderToks resp q (FmtTok.slot (("responses").toList) :: ts)
      = (renderToks resp q ts).map (fun t => resp ++ t) := by
  rw [renderToks.eq_def]
  simp

theorem renderToks_slot_query (resp q : List Char) (ts : List FmtTok) :
    renderToks resp q (FmtTok.slot (("query").toList) :: ts)
      = (renderToks resp q ts).map (fun t => q ++ t) := by
  rw [renderToks.eq_def]
  simp

theorem renderToks_ch_only (resp q : List Char) :
    ∀ pre : List Char, renderToks resp q (pre.map FmtTok.ch) = .ok pre := by
  intro pre
  induction pre with
  | nil => rfl
  | cons a pre ih =>
    rw [List.map_cons, renderToks.eq_def]
    simp only [ih]
    rfl

theorem pyFormat_responses_query (pre mid post resp q : List Char)
    (hp1 : lb ∉ pre) (hp2 : rb ∉ pre) (hm1 : lb ∉ mid) (hm2 : rb ∉ mid)
    (ho1 : lb ∉ post) (ho2 : rb ∉ post) :
    pyFormat (pre ++ fmt_slot (("responses").toList) ++ mid
        ++ fmt_slot (("query").toList) ++ post) resp q
      = .ok (pre ++ resp ++ mid ++ q ++ post) := by
  have htmpl : pre ++ fmt_slot (("responses").toList) ++ mid
      ++ fmt_slot (("query").toList) ++ post
      = pre ++ (lb :: ((("responses").toList) ++ rb ::
          (mid ++ (lb :: ((("query").toList) ++ rb :: post))))) := by
    simp [fmt_slot]
  rw [htmpl]
  have hscan := fmtTokens_two_slots pre mid post (("responses").toList)
    (("query").toList) hp1 hp2 hm1 hm2 ho1 ho2
    (by decide) (by decide) (by decide) (by decide) (by decide) (by decide)
  simp only [pyFormat, hscan]
  rw [renderToks_ch_append, renderToks_slot_responses, renderToks_ch_append,
    renderToks_slot_query, renderToks_ch_only]
  simp [Except.map, List.append_assoc]

theorem pyFormat_query_responses (pre mid post resp q : List Char)
    (hp1 : lb ∉ pre) (hp2 : rb ∉ pre) (hm1 : lb ∉ mid) (hm2 : rb ∉ mid)
    (ho1 : lb ∉ post) (ho2 : rb ∉ post) :
    pyFormat (pre ++ fmt_slot (("query").toList) ++ mid
        ++ fmt_slot (("responses").toList) ++ post) resp q
      = .ok (pre ++ q ++ mid ++ resp ++ post) := by
  have htmpl : pre ++ fmt_slot (("query").toList) ++ mid
      ++ fmt_slot (("responses").toList) ++ post
      = pre ++ (lb :: ((("query").toList) ++ rb ::
          (mid ++ (lb :: ((("responses").toList) ++ rb :: post))))) := by
    simp [fmt_slot]
  rw [htmpl]
  have hscan := fmtTokens_two_slots pre mid post (("query").toList)
    (("responses").toList) hp1 hp2 hm1 hm2 ho1 ho2
    (by decide) (by decide) (by decide) (by decide) (by decide) (by decide)
  simp only [pyFormat, hscan]
  rw [renderToks_ch_append, renderToks_slot_query, renderToks_ch_append,
    renderToks_slot_responses, renderToks_ch_only]
  simp [Except.map, List.append_assoc]

/-- Claim C8: for every query and list of fragments, and every synthesis
template whose literal parts are brace-free with its two named slots in
either order, the synthesis prompt is the template with the `responses`
slot replaced by exactly the fragments joined with single newline
separators and the `query` slot replaced by exactly the original query,
and `synthesize_wisdom` returns both the generated text and that exact
prompt string. -/
theorem C8_synthesis_prompt (pre mid post q : List Char)
    (frags : List (List Char)) (llm : List Char → List Char)
    (hp1 : lb ∉ pre) (hp2 : rb ∉ pre) (hm1 : lb ∉ mid) (hm2 : rb ∉ mid)
    (ho1 : lb ∉ post) (ho2 : rb ∉ post) :
    synthesize_wisdom (pre ++ fmt_slot (("responses").toList) ++ mid
        ++ fmt_slot (("query").toList) ++ post) llm q frags
      = .ok (llm (pre ++ List.intercalate [nl] frags ++ mid ++ q ++ post),
             pre ++ List.intercalate [nl] frags ++ mid ++ q ++ post)
    ∧ synthesize_wisdom (pre ++ fmt_slot (("query").toList) ++ mid
        ++ fmt_slot (("responses").toList) ++ post) llm q frags
      = .ok (llm (pre ++ q ++ mid ++ List.intercalate [nl] frags ++ post),
             pre ++ q ++ mid ++ List.intercalate [nl] frags ++ post) := by
  constructor
  · have h := pyFormat_responses_query pre mid post (List.intercalate [nl] frags) q
      hp1 hp2 hm1 hm2 ho1 ho2
    simp only [synthesize_wisdom, h]
  · have h := pyFormat_query_responses pre mid post (List.intercalate [nl] frags) q
      hp1 hp2 hm1 hm2 ho1 ho2
    simp only [synthesize_wisdom, h]

/-- Witness for C8 at the template `"R: \x7bresponses\x7d\nQ: \x7bquery\x7d"`,
query `Q0` and fragments `["A", "B"]`; the joined responses are exactly
`"A\nB"`. -/
theorem C8_synthesis_prompt_witness :
    synthesize_wisdom (("R: ").toList ++ fmt_slot (("responses").toList)
        ++ ("\nQ: ").toList ++ fmt_slot (("query").toList) ++ [])
        (fun s => s) (("Q0").toList) [("A").toList, ("B").toList]
      = .ok (("R: ").toList ++ List.intercalate [nl] [("A").toList, ("B").toList]
              ++ ("\nQ: ").toList ++ ("Q0").toList ++ [],
             ("R: ").toList ++ List.intercalate [nl] [("A").toList, ("B").toList]
              ++ ("\nQ: ").toList ++ ("Q0").toList ++ [])
    ∧ List.intercalate [nl] [("A").toList, ("B").toList] = ("A\nB").toList := by
  refine ⟨?_, by decide⟩
  exact (C8_synthesis_prompt (("R: ").toList) (("\nQ: ").toList) []
    (("Q0").toList) [("A").toList, ("B").toList] (fun s => s)
    (by decide) (by decide) (by decide) (by decide) (by decide) (by decide)).1

end Vera
